import Mathlib

/-!
Verification of the allium-deploy search handler (Cloudflare Pages function).

The JavaScript source (the optimized `search` handler: `buildLookupMaps`,
`validateQuery`, `safeRedirect`, `escapeHtml`, `loadIndex`, `search`, and the
page-rendering helpers) is embedded shallowly below.  JavaScript strings are
modelled as `List Char`; JavaScript `Map` objects are modelled as
insertion-ordered association lists (`set` overwrites in place, `get` returns
the first hit); JavaScript `Set` objects are modelled as duplicate-free lists
in insertion order.  Field absence and JS string truthiness are both modelled
by the empty list (a JS field that is `undefined`, `null` or `""` is falsy).
-/

namespace Allium

abbrev Str := List Char

-- ===========================================================================
-- Character classes (models of the character classes used by the regexes)
-- ===========================================================================

/-- JS whitespace (`\s` and `String.prototype.trim`): ASCII whitespace plus
the Unicode space separators, line separators and the BOM. -/
def isJsSpace (c : Char) : Bool :=
  (9 ≤ c.val && c.val ≤ 13) || c.val = 32 || c.val = 0xa0 || c.val = 0x1680 ||
  (0x2000 ≤ c.val && c.val ≤ 0x200a) || c.val = 0x2028 || c.val = 0x2029 ||
  c.val = 0x202f || c.val = 0x205f || c.val = 0x3000 || c.val = 0xfeff

/-- JS `\w`: `[A-Za-z0-9_]`. -/
def isWordChar (c : Char) : Bool :=
  c.isAlpha || c.isDigit || c = '_'

/-- Character class of `RE_ALLOWED_CHARS = /^[\w\s.\-:@]+$/`. -/
def isAllowedChar (c : Char) : Bool :=
  isWordChar c || isJsSpace c || c = '.' || c = '-' || c = ':' || c = '@'

/-- `[A-Fa-f0-9]`. -/
def isHexChar (c : Char) : Bool :=
  c.isDigit || ('a' ≤ c && c ≤ 'f') || ('A' ≤ c && c ≤ 'F')

/-- Character class of `RE_SAFE_PATH = /^[\w-]+$/`. -/
def isSafePathChar (c : Char) : Bool :=
  isWordChar c || c = '-'

-- ===========================================================================
-- String helpers (models of the JS string methods used by the handler)
-- ===========================================================================

/-- `String.prototype.toLowerCase` (the handler only ever folds ASCII data). -/
def toLowerStr (s : Str) : Str := s.map Char.toLower

/-- `String.prototype.toUpperCase`. -/
def toUpperStr (s : Str) : Str := s.map Char.toUpper

/-- `String.prototype.trim`. -/
def jsTrim (s : Str) : Str :=
  ((s.dropWhile isJsSpace).reverse.dropWhile isJsSpace).reverse

/-- `hay.includes(needle)`. -/
def jsIncludes (needle : Str) : Str → Bool
  | [] => needle.isEmpty
  | c :: rest => needle.isPrefixOf (c :: rest) || jsIncludes needle rest

/-- `String.prototype.split('.')`. -/
def splitOnDot : Str → List Str
  | [] => [[]]
  | c :: rest =>
    if c = '.' then [] :: splitOnDot rest
    else
      match splitOnDot rest with
      | s :: ss => (c :: s) :: ss
      | [] => [[c]]

-- ===========================================================================
-- Regex models
-- ===========================================================================

/-- `RE_FULL_FINGERPRINT = /^[A-Fa-f0-9]{40}$/`. -/
def reFullFingerprint (q : Str) : Bool :=
  decide (q.length = 40) && q.all isHexChar

/-- `RE_PARTIAL_FINGERPRINT = /^[A-Fa-f0-9]{6,39}$/`. -/
def rePartialFingerprint (q : Str) : Bool :=
  decide (6 ≤ q.length) && decide (q.length ≤ 39) && q.all isHexChar

/-- A run of 1 to 10 decimal digits (`\d{1,10}` anchored). -/
def digitsRun (q : Str) : Bool :=
  decide (1 ≤ q.length) && decide (q.length ≤ 10) && q.all Char.isDigit

/-- `q.match(RE_AS_NUMBER)` with `RE_AS_NUMBER = /^(?:AS)?(\d{1,10})$/i`,
returning the captured digit group on a match. -/
def asNumberMatch (q : Str) : Option Str :=
  match q with
  | a :: s :: rest =>
    if ((a = 'A' ∨ a = 'a') ∧ (s = 'S' ∨ s = 's')) ∧ digitsRun rest then some rest
    else if digitsRun q then some q else none
  | _ => if digitsRun q then some q else none

/-- `RE_COUNTRY_CODE = /^[A-Za-z]{2}$/`. -/
def reCountryCode (q : Str) : Bool :=
  decide (q.length = 2) && q.all Char.isAlpha

/-- `RE_IPV4 = /^(?:\d{1,3}\.){3}\d{1,3}$/`. -/
def reIPv4 (q : Str) : Bool :=
  let parts := splitOnDot q
  decide (parts.length = 4) &&
    parts.all (fun p => decide (1 ≤ p.length) && decide (p.length ≤ 3) && p.all Char.isDigit)

/-- `RE_IPV6_CHARS = /^[A-Fa-f0-9:]+$/`. -/
def reIPv6Chars (q : Str) : Bool :=
  decide (1 ≤ q.length) && q.all (fun c => isHexChar c || c = ':')

/-- `RE_ALLOWED_CHARS = /^[\w\s.\-:@]+$/` as a whole-string test. -/
def reAllowedChars (q : Str) : Bool :=
  decide (1 ≤ q.length) && q.all isAllowedChar

/-- `RE_SAFE_PATH = /^[\w-]+$/` as a whole-string test. -/
def reSafePath (q : Str) : Bool :=
  decide (1 ≤ q.length) && q.all isSafePathChar

-- ===========================================================================
-- JS Map / Set models (insertion-ordered association lists)
-- ===========================================================================

/-- `Map.prototype.set`: overwrite in place if the key exists, else append. -/
def mapSet [DecidableEq κ] : List (κ × α) → κ → α → List (κ × α)
  | [], k, v => [(k, v)]
  | (k', v') :: rest, k, v =>
    if k' = k then (k, v) :: rest else (k', v') :: mapSet rest k v

/-- `Map.prototype.get` (`none` models `undefined`). -/
def mapGet [DecidableEq κ] : List (κ × α) → κ → Option α
  | [], _ => none
  | (k', v) :: rest, k => if k' = k then some v else mapGet rest k

/-- `Set.prototype.add`. -/
def setAdd [DecidableEq κ] (s : List κ) (k : κ) : List κ :=
  if k ∈ s then s else s ++ [k]

/-- `Set.prototype.has`. -/
def setHas [DecidableEq κ] (s : List κ) (k : κ) : Bool :=
  decide (k ∈ s)

-- ===========================================================================
-- Data model (records of the raw search index and the built lookups)
-- ===========================================================================

/-- A relay record of the raw index.  An absent or empty (falsy) field is
the empty list; `ip` may be a string or an array in JS and is modelled as a
list (a lone string becomes a singleton list). -/
structure Relay where
  f : Str := []
  n : Str := []
  asn : Str := []
  cc : Str := []
  ip : List Str := []
  fam : Str := []
deriving DecidableEq, Repr

/-- An entry of `raw.autonomous_systems`. -/
structure ASEntry where
  num : Str := []
deriving DecidableEq, Repr

/-- An entry of `raw.countries`. -/
structure Country where
  code : Str := []
  name : Str := []
deriving DecidableEq, Repr

/-- An entry of `raw.contacts`. -/
structure Contact where
  domain : Str := []
  hash : Str := []
deriving DecidableEq, Repr

/-- An entry of `raw.families` (`pfx` models the source field `prefix`). -/
structure Family where
  id : Str := []
  pfx : Str := []
deriving DecidableEq, Repr

/-- The raw search index (`raw.<collection> || []` defaults). -/
structure RawIndex where
  relays : List Relay := []
  autonomous_systems : List ASEntry := []
  countries : List Country := []
  contacts : List Contact := []
  families : List Family := []
deriving DecidableEq, Repr

/-- The frozen lookup structure returned by `buildLookupMaps`. -/
structure Lookup where
  relays : List Relay := []
  fpMap : List (Str × Relay) := []
  nickMap : List (Str × Relay) := []
  ipMap : List (Str × Relay) := []
  asSet : List Str := []
  ccSet : List Str := []
  ccNameMap : List (Str × Str) := []
  contactDomainMap : List (Str × Contact) := []
  contactHashMap : List (Str × Contact) := []
  familyIdMap : List (Str × Family) := []
  familyPrefixMap : List (Str × Family) := []
deriving DecidableEq, Repr

-- ===========================================================================
-- Precomputed constants
-- ===========================================================================

def MAX_QUERY_LENGTH : Nat := 100

def INDEX_CACHE_TTL_MS : Nat := 300000

def MAX_RESULTS : Nat := 20

def KNOWN_PLATFORMS : List Str :=
  [("linux").data, ("freebsd").data, ("windows").data, ("darwin").data,
   ("openbsd").data, ("netbsd").data, ("sunos").data]

def KNOWN_FLAGS : List Str :=
  [("authority").data, ("badexit").data, ("exit").data, ("fast").data,
   ("guard").data, ("hsdir").data, ("named").data, ("running").data,
   ("stable").data, ("v2dir").data, ("valid").data]

def SAFE_REDIRECT_PREFIXES : List Str :=
  [("/relay/").data, ("/family/").data, ("/contact/").data, ("/as/").data,
   ("/country/").data, ("/platform/").data, ("/flag/").data, ("/first_seen/").data]

-- ===========================================================================
-- buildLookupMaps (one pass per collection, as in the source)
-- ===========================================================================

/-- Body of the single pass over `raw.relays`. -/
def relayStep (acc : Lookup) (r : Relay) : Lookup :=
  let acc := if r.f.isEmpty then acc else { acc with fpMap := mapSet acc.fpMap r.f r }
  let acc :=
    if r.n.isEmpty then acc
    else if (mapGet acc.nickMap (toLowerStr r.n)).isSome then acc
    else { acc with nickMap := mapSet acc.nickMap (toLowerStr r.n) r }
  let acc := if r.asn.isEmpty then acc else { acc with asSet := setAdd acc.asSet (toUpperStr r.asn) }
  let acc := if r.cc.isEmpty then acc else { acc with ccSet := setAdd acc.ccSet (toLowerStr r.cc) }
  { acc with ipMap := r.ip.foldl (fun m ip => mapSet m ip r) acc.ipMap }

/-- Body of the pass over `raw.autonomous_systems`. -/
def asStep (acc : Lookup) (a : ASEntry) : Lookup :=
  if a.num.isEmpty then acc else { acc with asSet := setAdd acc.asSet (toUpperStr a.num) }

/-- Body of the pass over `raw.countries`. -/
def countryStep (acc : Lookup) (c : Country) : Lookup :=
  let acc := if c.code.isEmpty then acc else { acc with ccSet := setAdd acc.ccSet (toLowerStr c.code) }
  if c.name.isEmpty ∨ c.code.isEmpty then acc
  else { acc with ccNameMap := mapSet acc.ccNameMap (toLowerStr c.name) (toLowerStr c.code) }

/-- Body of the pass over `raw.contacts`. -/
def contactStep (acc : Lookup) (c : Contact) : Lookup :=
  let acc :=
    if c.domain.isEmpty then acc
    else { acc with contactDomainMap := mapSet acc.contactDomainMap (toLowerStr c.domain) c }
  if c.hash.isEmpty then acc
  else { acc with contactHashMap := mapSet acc.contactHashMap (toLowerStr c.hash) c }

/-- Body of the pass over `raw.families`. -/
def familyStep (acc : Lookup) (fa : Family) : Lookup :=
  let acc := if fa.id.isEmpty then acc else { acc with familyIdMap := mapSet acc.familyIdMap fa.id fa }
  if fa.pfx.isEmpty then acc
  else { acc with familyPrefixMap := mapSet acc.familyPrefixMap (toLowerStr fa.pfx) fa }

/-- `buildLookupMaps(raw)`: build the frozen lookup structure. -/
def buildLookupMaps (raw : RawIndex) : Lookup :=
  let idx0 : Lookup := { relays := raw.relays }
  let idx1 := raw.relays.foldl relayStep idx0
  let idx2 := raw.autonomous_systems.foldl asStep idx1
  let idx3 := raw.countries.foldl countryStep idx2
  let idx4 := raw.contacts.foldl contactStep idx3
  raw.families.foldl familyStep idx4

-- ===========================================================================
-- Input validation
-- ===========================================================================

/-- Result record of `validateQuery` (`ok`, `q`, `err`). -/
structure VResult where
  ok : Bool
  q : Str
  err : Str
deriving DecidableEq, Repr

def emptyErr : Str := ("empty").data

def tooLongErr : Str := ("Query too long (max 100 chars)").data

def invalidCharsErr : Str := ("Query contains invalid characters").data

/-- `validateQuery(raw)`; the argument is `none` when `q` is absent. -/
def validateQuery : Option Str → VResult
  | none => ⟨false, [], emptyErr⟩
  | some raw =>
    if raw.isEmpty then ⟨false, [], emptyErr⟩
    else
      let q := jsTrim raw
      if q.isEmpty then ⟨false, [], emptyErr⟩
      else if MAX_QUERY_LENGTH < q.length then ⟨false, [], tooLongErr⟩
      else if !reAllowedChars q then ⟨false, [], invalidCharsErr⟩
      else ⟨true, q, []⟩

/-- `isSafePath(s)`. -/
def isSafePath (s : Str) : Bool :=
  !s.isEmpty && decide (s.length ≤ 100) && reSafePath s

-- ===========================================================================
-- safeRedirect
-- ===========================================================================

/-- Outcome of `safeRedirect`: a 400 `Invalid redirect` response, or a 302
redirect to `new URL(path, origin)` (URL resolution itself is out of scope;
the target is kept as the origin/path pair). -/
inductive RedirectOutcome
  | invalid
  | redirect (origin path : Str)
deriving DecidableEq, Repr

/-- `safeRedirect(origin, path)`. -/
def safeRedirect (origin path : Str) : RedirectOutcome :=
  let ok := SAFE_REDIRECT_PREFIXES.any (fun p => p.isPrefixOf path)
  if !ok || jsIncludes (("://").data) path || (("//").data).isPrefixOf path then
    .invalid
  else
    .redirect origin path

-- ===========================================================================
-- escapeHtml
-- ===========================================================================

/-- The single-character replacement of `HTML_ESCAPE_MAP`. -/
def escapeChar (c : Char) : Str :=
  if c = '&' then ("&amp;").data
  else if c = '<' then ("&lt;").data
  else if c = '>' then ("&gt;").data
  else if c = '"' then ("&quot;").data
  else if c = Char.ofNat 39 then ("&#x27;").data
  else [c]

/-- `escapeHtml(s)` (the global regex replaces every matched character). -/
def escapeHtml : Str → Str
  | [] => []
  | c :: rest => escapeChar c ++ escapeHtml rest

-- ===========================================================================
-- Search result type and the search stages
-- ===========================================================================

/-- The match entries produced by `relayResult`. -/
structure MatchEntry where
  t : Str := []
  f : Str := []
  n : Str := []
  cc : Str := []
deriving DecidableEq, Repr

/-- The tagged results of `search`. -/
inductive SearchResult
  | relay (id : Str)
  | family (id : Str)
  | asRes (id : Str)
  | country (id : Str)
  | platform (id : Str)
  | flag (id : Str)
  | contact (id : Str)
  | multiple (ms : List MatchEntry) (hint : Str)
  | not_found
deriving DecidableEq, Repr

/-- `relayResult(r)`. -/
def relayResult (r : Relay) : MatchEntry :=
  { t := ("relay").data, f := r.f, n := r.n, cc := r.cc }

def fpPrefixHint : Str := ("Multiple relays match this fingerprint prefix").data

def multiHint (q : Str) : Str :=
  ("Multiple relays match \"").data ++ q ++ ("\"").data

def containsHint (count : Nat) (q : Str) : Str :=
  ("Found ").data ++ Nat.toDigits 10 count ++ (" relays containing \"").data ++ q ++ ("\"").data

/-- Stage 2 scan over the fingerprint map entries (in insertion order),
breaking once more than `MAX_RESULTS` matches have been collected. -/
def collectFpPrefix (qUp : Str) : List (Str × Relay) → List Relay → List Relay
  | [], acc => acc
  | (fp, r) :: rest, acc =>
    if qUp.isPrefixOf fp then
      let acc' := acc ++ [r]
      if MAX_RESULTS < acc'.length then acc' else collectFpPrefix qUp rest acc'
    else collectFpPrefix qUp rest acc

/-- Stage 3: AS number. -/
def stage3 (q : Str) (idx : Lookup) : Option SearchResult :=
  match asNumberMatch q with
  | some ds =>
    let asNum := ("AS").data ++ ds
    if setHas idx.asSet asNum then some (.asRes asNum) else none
  | none => none

/-- Stage 4: country code. -/
def stage4 (q qLow : Str) (idx : Lookup) : Option SearchResult :=
  if reCountryCode q && setHas idx.ccSet qLow then some (.country qLow) else none

/-- Stage 5: country name (the looked-up value is itself truthiness-tested). -/
def stage5 (qLow : Str) (idx : Lookup) : Option SearchResult :=
  match mapGet idx.ccNameMap qLow with
  | some cc => if cc.isEmpty then none else some (.country cc)
  | none => none

/-- Stage 6: platform. -/
def stage6 (qLow : Str) : Option SearchResult :=
  if setHas KNOWN_PLATFORMS qLow then some (.platform qLow) else none

/-- Stage 7: flag. -/
def stage7 (qLow : Str) : Option SearchResult :=
  if setHas KNOWN_FLAGS qLow then some (.flag qLow) else none

/-- Stage 8: contact domain, then contact hash. -/
def stage8 (qLow : Str) (idx : Lookup) : Option SearchResult :=
  match mapGet idx.contactDomainMap qLow with
  | some c => some (.contact c.hash)
  | none =>
    match mapGet idx.contactHashMap qLow with
    | some c => some (.contact c.hash)
    | none => none

/-- Stage 9: IP address. -/
def stage9 (q : Str) (idx : Lookup) : Option SearchResult :=
  if reIPv4 q || (jsIncludes ((":").data) q && reIPv6Chars q) then
    (mapGet idx.ipMap q).map (fun r => .relay r.f)
  else none

/-- Stage 10: exact nickname. -/
def stage10 (qLow : Str) (idx : Lookup) : Option SearchResult :=
  (mapGet idx.nickMap qLow).map (fun r => .relay r.f)

/-- Stage 11: family by prefix. -/
def stage11 (qLow : Str) (idx : Lookup) : Option SearchResult :=
  (mapGet idx.familyPrefixMap qLow).map (fun fa => .family fa.id)

/-- Stage 12 combined scan: collect nickname prefix matches (breaking once
more than `MAX_RESULTS` are held) and, in the same pass, `contains` matches
while at most `MAX_RESULTS * 2` are already held. -/
def collectNick (qLow : Str) : List Relay → List Relay → List Relay → List Relay × List Relay
  | [], pref, cont => (pref, cont)
  | r :: rest, pref, cont =>
    if r.n.isEmpty then collectNick qLow rest pref cont
    else
      let nLow := toLowerStr r.n
      if qLow.isPrefixOf nLow then
        let pref' := pref ++ [r]
        if MAX_RESULTS < pref'.length then (pref', cont)
        else collectNick qLow rest pref' cont
      else if decide (cont.length ≤ MAX_RESULTS * 2) && jsIncludes qLow nLow then
        collectNick qLow rest pref (cont ++ [r])
      else collectNick qLow rest pref cont

/-- The all-same-family check over the prefix matches (`famId`, `sameFam`). -/
def commonFam : List Relay → Option Str → Bool × Option Str
  | [], famId => (true, famId)
  | r :: rest, famId =>
    if r.fam.isEmpty then (false, famId)
    else
      match famId with
      | none => commonFam rest (some r.fam)
      | some fi => if fi = r.fam then commonFam rest (some fi) else (false, some fi)

/-- Stage 12: nickname prefix/contains disambiguation and final fallbacks. -/
def stage12 (q qLow : Str) (idx : Lookup) : SearchResult :=
  let pc := collectNick qLow idx.relays [] []
  let pref := pc.1
  let cont := pc.2
  match pref with
  | [p] => .relay p.f
  | _ :: _ :: _ =>
    let fr := commonFam pref none
    match fr with
    | (true, some famId) =>
      if famId.isEmpty then .multiple ((pref.take MAX_RESULTS).map relayResult) (multiHint q)
      else .family famId
    | _ => .multiple ((pref.take MAX_RESULTS).map relayResult) (multiHint q)
  | [] =>
    match cont with
    | [c] => .relay c.f
    | _ :: _ :: _ =>
      if cont.length ≤ MAX_RESULTS * 2 then
        .multiple ((cont.take MAX_RESULTS).map relayResult) (containsHint cont.length q)
      else .not_found
    | [] => .not_found

/-- Stages 3 through 13 (everything after the fingerprint stages). -/
def searchLater (q : Str) (idx : Lookup) : SearchResult :=
  let qLow := toLowerStr q
  match stage3 q idx with
  | some r => r
  | none =>
  match stage4 q qLow idx with
  | some r => r
  | none =>
  match stage5 qLow idx with
  | some r => r
  | none =>
  match stage6 qLow with
  | some r => r
  | none =>
  match stage7 qLow with
  | some r => r
  | none =>
  match stage8 qLow idx with
  | some r => r
  | none =>
  match stage9 q idx with
  | some r => r
  | none =>
  match stage10 qLow idx with
  | some r => r
  | none =>
  match stage11 qLow idx with
  | some r => r
  | none => stage12 q qLow idx

/-- `search(q, idx)`. -/
def search (q : Str) (idx : Lookup) : SearchResult :=
  if reFullFingerprint q then
    let qUp := toUpperStr q
    match mapGet idx.fpMap qUp with
    | some r => .relay r.f
    | none =>
      match mapGet idx.familyIdMap qUp with
      | some fa => .family fa.id
      | none => .not_found
  else if rePartialFingerprint q then
    match collectFpPrefix (toUpperStr q) idx.fpMap [] with
    | [] => searchLater q idx
    | [m] => .relay m.f
    | ms => .multiple ((ms.take MAX_RESULTS).map relayResult) fpPrefixHint
  else searchLater q idx

-- ===========================================================================
-- loadIndex and the module-level cache
-- ===========================================================================

/-- The module-level mutable state (`cachedIndex`, `cacheExpiry`). -/
structure CacheState where
  cachedIndex : Option Lookup
  cacheExpiry : Nat
deriving DecidableEq, Repr

/-- Outcome of `await fetch(...)` combined with `await res.json()`: the fetch
may reject, the response may not be `ok`, the body may fail to parse, or the
parse yields a raw index. -/
inductive FetchOutcome
  | netError
  | httpError (status : Nat)
  | parseError
  | ok (raw : RawIndex)
deriving DecidableEq, Repr

/-- Result of `loadIndex`: the built lookup, or a thrown error. -/
inductive LoadResult
  | ok (idx : Lookup)
  | err
deriving DecidableEq, Repr

/-- The fetch-parse-build-publish tail of `loadIndex` (everything after the
cache-hit early return). -/
def loadFetch (fetched : FetchOutcome) (now : Nat) (st : CacheState) :
    LoadResult × CacheState :=
  match fetched with
  | .netError => (.err, st)
  | .httpError _ => (.err, st)
  | .parseError => (.err, st)
  | .ok raw =>
    let built := buildLookupMaps raw
    (.ok built, { cachedIndex := some built, cacheExpiry := now + INDEX_CACHE_TTL_MS })

/-- `loadIndex(origin)`, with the environment's fetch outcome and `Date.now()`
passed explicitly; returns the result together with the state of the module
cache after the call (`if (cachedIndex && now < cacheExpiry) return cachedIndex`). -/
def loadIndex (fetched : FetchOutcome) (now : Nat) (st : CacheState) :
    LoadResult × CacheState :=
  match st.cachedIndex with
  | some idx => if now < st.cacheExpiry then (.ok idx, st) else loadFetch fetched now st
  | none => loadFetch fetched now st

-- ===========================================================================
-- Precomputed static HTML fragments
-- ===========================================================================

def HTML_HEAD_START : Str :=
  ("<!DOCTYPE html>\n<html lang=\"en\">\n<head>\n<meta charset=\"utf-8\">\n<meta name=\"viewport\" content=\"width=device-width,initial-scale=1\">\n<title>").data

def HTML_HEAD_END : Str :=
  (" - Allium</title>\n<link rel=\"stylesheet\" href=\"/static/css/bootstrap.min.css\">\n<style>body\x7bpadding:40px 20px;max-width:800px;margin:0 auto\x7d.search-box\x7bmargin-bottom:30px\x7d.results\x7bmargin-top:20px\x7d.result-item\x7bpadding:10px;border-bottom:1px solid #eee\x7d.result-item:hover\x7bbackground:#f8f9fa\x7d.result-item a\x7btext-decoration:none\x7d.fp\x7bfont-family:monospace;font-size:.85em;color:#666\x7d.hint\x7bcolor:#666;font-style:italic;margin-bottom:15px\x7d.back\x7bmargin-top:20px\x7d</style>\n</head>\n<body>\n").data

def HTML_FORM_START : Str :=
  ("<div class=\"search-box\"><form action=\"/search\" method=\"get\"><div class=\"input-group\"><input type=\"text\" name=\"q\" class=\"form-control\" placeholder=\"Search by fingerprint, nickname, AS, country, IP...\" value=\"").data

def HTML_FORM_END : Str :=
  ("\" maxlength=\"100\" autofocus><button class=\"btn btn-primary\" type=\"submit\">Search</button></div></form></div>\n").data

def HTML_FOOTER : Str :=
  ("<p class=\"back\"><a href=\"/\">‚Üê Back to home</a></p>\n</body>\n</html>").data

def HTML_TIPS : Str :=
  ("<h4>Search Tips</h4>\n<ul>\n<li><strong>Fingerprint:</strong> 6+ hex characters (e.g., <code>ABCD1234</code>)</li>\n<li><strong>Nickname:</strong> Relay name (e.g., <code>MyRelay</code>)</li>\n<li><strong>AS Number:</strong> With or without prefix (e.g., <code>AS24940</code> or <code>24940</code>)</li>\n<li><strong>Country:</strong> Code or name (e.g., <code>de</code> or <code>Germany</code>)</li>\n<li><strong>IP Address:</strong> IPv4 or IPv6</li>\n<li><strong>Contact:</strong> AROI domain (e.g., <code>example.org</code>)</li>\n</ul>\n").data

-- ===========================================================================
-- Page rendering (body string and HTTP status)
-- ===========================================================================

/-- `renderPage(title, content, query)`. -/
def renderPage (title content query : Str) : Str :=
  HTML_HEAD_START ++ escapeHtml title ++ HTML_HEAD_END ++
  ("<h2>").data ++ escapeHtml title ++ ("</h2>\n").data ++
  HTML_FORM_START ++ escapeHtml query ++ HTML_FORM_END ++
  ("<div class=\"results\">\n").data ++ content ++ ("</div>\n").data ++ HTML_FOOTER

/-- One `result-item` block of the disambiguation loop (non-relay entries
contribute nothing). -/
def renderItem (m : MatchEntry) : Str :=
  if m.t = ("relay").data then
    let name := escapeHtml (if m.n.isEmpty then ("Unnamed").data else m.n)
    let fp := escapeHtml m.f
    let cc := if m.cc.isEmpty then [] else escapeHtml (toUpperStr m.cc) ++ (" ").data
    ("<div class=\"result-item\"><a href=\"/relay/").data ++ fp ++
    ("/\"><strong>").data ++ name ++ ("</strong><br><span class=\"fp\">").data ++
    cc ++ fp ++ ("</span></a></div>\n").data
  else []

/-- `renderDisambiguation(matches, query, hint)`: body and status 200. -/
def renderDisambiguation (ms : List MatchEntry) (query hint : Str) : Str × Nat :=
  let hintPart :=
    if hint.isEmpty then []
    else ("<p class=\"hint\">").data ++ escapeHtml hint ++ ("</p>\n").data
  let content := hintPart ++ (ms.map renderItem).flatten
  (renderPage (("Search Results").data) content query, 200)

/-- `renderNotFound(query)`: body and status 404. -/
def renderNotFound (query : Str) : Str × Nat :=
  let content :=
    ("<p>No relays, families, or operators found matching \"<strong>").data ++
    escapeHtml query ++ ("</strong>\".</p>\n").data ++ HTML_TIPS
  (renderPage (("No Results Found").data) content query, 404)

/-- `renderInvalid(error)`: body and status 400. -/
def renderInvalid (error : Str) : Str × Nat :=
  let content := ("<p class=\"text-danger\">").data ++ escapeHtml error ++ ("</p>\n").data
  (renderPage (("Invalid Search Query").data) content [], 400)

-- ===========================================================================
-- Output-safety predicates for the escaping claims
-- ===========================================================================

/-- The four HTML-dangerous characters that must never survive escaping. -/
def isDangerChar (c : Char) : Bool :=
  c = '<' || c = '>' || c = '"' || c = Char.ofNat 39

/-- Number of dangerous characters in a string. -/
def dangerCount (t : Str) : Nat := t.countP isDangerChar

/-- Does the text start with the tail of one of the five escape entities? -/
def entityAt (t : Str) : Bool :=
  (("amp;").data).isPrefixOf t || (("lt;").data).isPrefixOf t ||
  (("gt;").data).isPrefixOf t || (("quot;").data).isPrefixOf t ||
  (("#x27;").data).isPrefixOf t

/-- Every `&` in the text begins one of the five replacement entities. -/
def ampOk : Str → Bool
  | [] => true
  | c :: rest => (if c = '&' then entityAt rest else true) && ampOk rest

/-- Dangerous characters contributed by the static page template alone. -/
def pageDanger : Nat := dangerCount (renderPage [] [] [])

/-- Dangerous characters contributed by the static hint wrapper markup. -/
def hintWrapDanger : Nat :=
  dangerCount (("<p class=\"hint\">").data) + dangerCount (("</p>\n").data)

/-- Dangerous characters contributed by the static markup of one relay item. -/
def relayItemDanger : Nat :=
  dangerCount (renderItem { t := ("relay").data })

-- ===========================================================================
-- Concrete instances (indices used by witnesses and counterexamples)
-- ===========================================================================

/-- An index holding two distinct relays that share the nickname `relayX`. -/
def rawCollide : RawIndex :=
  { relays := [ { f := ("AAAA0001").data, n := ("relayX").data },
                { f := ("BBBB0002").data, n := ("relayX").data } ] }

/-- An index whose countries collection has GB / United Kingdom. -/
def rawGB : RawIndex :=
  { countries := [ { code := ("GB").data, name := ("United Kingdom").data } ] }

/-- The relay whose nickname contains (but does not start with) `relay`. -/
def containsRelay : Relay := { f := ("F0").data, n := ("xrelayx").data }

/-- An index with 35 relays whose nicknames contain the substring `relay`. -/
def rawContains35 : RawIndex := { relays := List.replicate 35 containsRelay }

/-- A relay with an uppercase canonical fingerprint prefix `ABCDEF`. -/
def relayOne : Relay := { f := ("ABCDEF1111").data, n := ("one").data }

/-- An index with two relays sharing the fingerprint prefix `ABCDEF`. -/
def rawFp : RawIndex :=
  { relays := [ relayOne,
                { f := ("ABCDEF2222").data, n := ("two").data },
                { f := ("FFFF0000").data, n := ("three").data } ] }

/-- A 40-character lowercase hex fingerprint. -/
def fp40low : Str := List.replicate 40 'a'

/-- An index whose sole relay stores its fingerprint in lowercase. -/
def rawLowFp : RawIndex := { relays := [ { f := fp40low } ] }

/-- A 40-character uppercase hex query matching nothing. -/
def fp40A : Str := List.replicate 40 'A'

-- ===========================================================================
-- Theorems
-- ===========================================================================

/-- C1: for every query of exactly 40 hexadecimal characters, `search` looks
the uppercased query up in the fingerprint map and then in the family-id map
and, if neither contains it, returns `not_found`; the result depends only on
those two maps, so no later stage is evaluated for such a query. -/
theorem c1_full_fingerprint_terminal (q : Str) (idx : Lookup)
    (h : reFullFingerprint q = true) :
    (search q idx =
      match mapGet idx.fpMap (toUpperStr q) with
      | some r => .relay r.f
      | none =>
        match mapGet idx.familyIdMap (toUpperStr q) with
        | some fa => .family fa.id
        | none => .not_found) ∧
    (∀ idx' : Lookup, idx'.fpMap = idx.fpMap → idx'.familyIdMap = idx.familyIdMap →
      search q idx' = search q idx) := by
  constructor
  · simp only [search, h, if_true]
  · intro idx' h1 h2
    simp only [search, h, if_true, h1, h2]

/-- Witness for C1: a well-formed fingerprint absent from both maps is
conclusively `not_found`. -/
theorem c1_full_fingerprint_terminal_witness :
    search fp40A (buildLookupMaps {}) = .not_found := by
  have h := c1_full_fingerprint_terminal fp40A (buildLookupMaps {}) (by decide)
  exact h.1.trans (by decide)

/-- C3: `safeRedirect` returns a 400 response (never a 302 redirect) for any
path containing `://` anywhere or beginning with `//`, regardless of any
allowlisted prefix, and likewise for any path starting with none of the
allowlisted prefixes. -/
theorem c3_safe_redirect_rejects (origin path : Str) :
    (jsIncludes (("://").data) path = true ∨ (("//").data).isPrefixOf path = true →
      safeRedirect origin path = .invalid) ∧
    ((SAFE_REDIRECT_PREFIXES.any fun p => p.isPrefixOf path) = false →
      safeRedirect origin path = .invalid) := by
  constructor
  · intro h
    unfold safeRedirect
    rcases h with h | h <;> simp [h]
  · intro h
    unfold safeRedirect
    simp [h]

/-- Witness for C3: an allowlisted-prefix path with an embedded `://` is
rejected, and a non-allowlisted path is rejected. -/
theorem c3_safe_redirect_rejects_witness :
    safeRedirect (("https://x.example").data) (("/relay/a://b/").data) = .invalid ∧
    safeRedirect (("https://x.example").data) (("/evil/").data) = .invalid :=
  ⟨(c3_safe_redirect_rejects (("https://x.example").data) (("/relay/a://b/").data)).1
      (Or.inl (by decide)),
   (c3_safe_redirect_rejects (("https://x.example").data) (("/evil/").data)).2 (by decide)⟩

/-- C10: `loadIndex` is atomic with respect to the module cache: a cache hit
returns the cached structure with the state untouched; a failing load (fetch
rejection, non-ok response, or parse failure) raises an error and leaves both
the cached structure and the expiry exactly as before; only a fully successful
fetch-and-build replaces the structure and sets the new expiry. -/
theorem c10_load_index_atomic (f : FetchOutcome) (now : Nat) (st : CacheState) :
    (∀ idx, st.cachedIndex = some idx → now < st.cacheExpiry →
       loadIndex f now st = (.ok idx, st)) ∧
    (¬(st.cachedIndex.isSome = true ∧ now < st.cacheExpiry) →
       ((∀ raw, f ≠ .ok raw) → loadIndex f now st = (.err, st)) ∧
       (∀ raw, f = .ok raw →
          loadIndex f now st =
            (.ok (buildLookupMaps raw),
             ⟨some (buildLookupMaps raw), now + INDEX_CACHE_TTL_MS⟩))) ∧
    ((loadIndex f now st).1 = .err → (loadIndex f now st).2 = st) := by
  refine ⟨?_, ?_, ?_⟩
  · intro idx hidx hlt
    simp [loadIndex, hidx, hlt]
  · intro hmiss
    constructor
    · intro hfail
      cases hst : st.cachedIndex with
      | some idx =>
        have hge : ¬ now < st.cacheExpiry := by
          intro hlt; exact hmiss ⟨by simp [hst], hlt⟩
        cases f with
        | netError => simp [loadIndex, hst, hge, loadFetch]
        | httpError s => simp [loadIndex, hst, hge, loadFetch]
        | parseError => simp [loadIndex, hst, hge, loadFetch]
        | ok raw => exact absurd rfl (hfail raw)
      | none =>
        cases f with
        | netError => simp [loadIndex, hst, loadFetch]
        | httpError s => simp [loadIndex, hst, loadFetch]
        | parseError => simp [loadIndex, hst, loadFetch]
        | ok raw => exact absurd rfl (hfail raw)
    · intro raw hraw
      subst hraw
      cases hst : st.cachedIndex with
      | some idx =>
        have hge : ¬ now < st.cacheExpiry := by
          intro hlt; exact hmiss ⟨by simp [hst], hlt⟩
        simp [loadIndex, hst, hge, loadFetch]
      | none => simp [loadIndex, hst, loadFetch]
  · intro herr
    cases hst : st.cachedIndex with
    | some idx =>
      by_cases hlt : now < st.cacheExpiry
      · simp [loadIndex, hst, hlt] at herr
      · have he : loadIndex f now st = loadFetch f now st := by
          simp [loadIndex, hst, hlt]
        rw [he] at herr ⊢
        cases f <;> simp_all [loadFetch]
    | none =>
      have he : loadIndex f now st = loadFetch f now st := by
        simp [loadIndex, hst]
      rw [he] at herr ⊢
      cases f <;> simp_all [loadFetch]

/-- Witness for C10: with an empty cache, a parse failure raises an error and
leaves the cache state untouched. -/
theorem c10_load_index_atomic_witness :
    loadIndex .parseError 7 ⟨none, 0⟩ = (.err, ⟨none, 0⟩) :=
  ((c10_load_index_atomic .parseError 7 ⟨none, 0⟩).2.1 (by simp)).1
    (by intro raw h; cases h)

/-- C6: `validateQuery` fails exactly when the raw input is absent or empty
after trimming (error `empty`), the trimmed input is longer than 100
characters (the too-long error), or the trimmed input contains a character
outside the allowlist (the invalid-characters error); on success it returns
the trimmed input with its character case unmodified.  (It is pure by
construction: a plain function of its argument.) -/
theorem c6_validate_query (raw : Option Str) :
    ((validateQuery raw).ok = true ↔
      ∃ s, raw = some s ∧ jsTrim s ≠ [] ∧ (jsTrim s).length ≤ MAX_QUERY_LENGTH ∧
           (jsTrim s).all isAllowedChar = true) ∧
    (∀ s, raw = some s → (validateQuery raw).ok = true →
       (validateQuery raw).q = jsTrim s) ∧
    (∀ s, raw = some s → jsTrim s = [] → (validateQuery raw).err = emptyErr) ∧
    (∀ s, raw = some s → jsTrim s ≠ [] → MAX_QUERY_LENGTH < (jsTrim s).length →
       (validateQuery raw).err = tooLongErr) ∧
    (∀ s, raw = some s → jsTrim s ≠ [] → (jsTrim s).length ≤ MAX_QUERY_LENGTH →
       (jsTrim s).all isAllowedChar = false → (validateQuery raw).err = invalidCharsErr) ∧
    (raw = none → (validateQuery raw).err = emptyErr) := by
  cases raw with
  | none =>
    refine ⟨?_, ?_, ?_, ?_, ?_, ?_⟩ <;> simp [validateQuery]
  | some s =>
    have hts : s = [] → jsTrim s = [] := by intro h; subst h; rfl
    simp only [validateQuery]
    split_ifs with h0 h1 h2 h3
    · -- raw string is empty (falsy)
      have hs : s = [] := List.isEmpty_iff.mp h0
      refine ⟨?_, ?_, ?_, ?_, ?_, ?_⟩ <;> simp_all [hts]
    · -- trimmed to empty
      refine ⟨?_, ?_, ?_, ?_, ?_, ?_⟩ <;> simp_all [List.isEmpty_iff.mp h1]
    · -- too long
      have hl : MAX_QUERY_LENGTH < (jsTrim s).length := h2
      refine ⟨?_, ?_, ?_, ?_, ?_, ?_⟩ <;> simp_all
    · -- invalid characters
      have hne : ¬ (jsTrim s).isEmpty = true := h1
      have hall : (jsTrim s).all isAllowedChar = false := by
        have h4 : reAllowedChars (jsTrim s) = false := by
          revert h3; cases reAllowedChars (jsTrim s) <;> simp
        have hlen : 1 ≤ (jsTrim s).length := by
          cases hq : jsTrim s with
          | nil => simp [hq] at hne
          | cons a l => simp [hq]
        simpa [reAllowedChars, hlen] using h4
      refine ⟨?_, ?_, ?_, ?_, ?_, ?_⟩ <;> simp_all
    · -- success
      have hall : (jsTrim s).all isAllowedChar = true := by
        have h4 : reAllowedChars (jsTrim s) = true := by
          revert h3; cases reAllowedChars (jsTrim s) <;> simp
        simp only [reAllowedChars, Bool.and_eq_true] at h4
        exact h4.2
      refine ⟨?_, ?_, ?_, ?_, ?_, ?_⟩ <;> simp_all

/-- Witness for C6: a padded well-formed query is accepted and returned
trimmed with its case unmodified. -/
theorem c6_validate_query_witness :
    (validateQuery (some (("  MyRelay  ").data))).ok = true ∧
    (validateQuery (some (("  MyRelay  ").data))).q = jsTrim (("  MyRelay  ").data) := by
  have h := c6_validate_query (some (("  MyRelay  ").data))
  have hok : (validateQuery (some (("  MyRelay  ").data))).ok = true :=
    h.1.mpr ⟨("  MyRelay  ").data, rfl, by decide, by decide, by decide⟩
  exact ⟨hok, h.2.1 _ rfl hok⟩

/-- C5 (counterexample to the claim as stated): with GB / United Kingdom in
the countries collection, classifying `uk` yields `not_found`, not the
country result GB — the code has no static alias table. -/
theorem c5_counterexample :
    search (("uk").data) (buildLookupMaps rawGB) = .not_found ∧
    search (("uk").data) (buildLookupMaps rawGB) ≠ .country (("gb").data) := by
  constructor
  · decide
  · decide

/-- C5 (amended): classifying `united kingdom` against any lookup structure
whose country-name map sends `united kingdom` to `gb` yields the country
result `gb`; classifying `uk` against the GB-only index yields `not_found`,
since only exact country codes and exact country names are consulted (no
alias table exists). -/
theorem c5_country_name_resolution :
    (∀ idx : Lookup,
       mapGet idx.ccNameMap (("united kingdom").data) = some (("gb").data) →
       search (("united kingdom").data) idx = .country (("gb").data)) ∧
    search (("uk").data) (buildLookupMaps rawGB) = .not_found := by
  constructor
  · intro idx h
    have h1 : reFullFingerprint (("united kingdom").data) = false := by decide
    have h2 : rePartialFingerprint (("united kingdom").data) = false := by decide
    have h3 : asNumberMatch (("united kingdom").data) = none := by decide
    have h4 : reCountryCode (("united kingdom").data) = false := by decide
    have h5 : toLowerStr (("united kingdom").data) = ("united kingdom").data := by decide
    simp [search, h1, h2, searchLater, h5, stage3, h3, stage4, h4, stage5, h]
  · decide

/-- Witness for C5: the GB-only index satisfies the name-map hypothesis, so
`united kingdom` resolves to the country result gb. -/
theorem c5_country_name_resolution_witness :
    search (("united kingdom").data) (buildLookupMaps rawGB) = .country (("gb").data) :=
  c5_country_name_resolution.1 (buildLookupMaps rawGB) (by decide)

/-- The stage-2 scan collects, in map order, the relays whose fingerprint key
starts with the uppercased query, stopping after `MAX_RESULTS + 1` of them. -/
theorem collectFpPrefix_spec (qUp : Str) (entries : List (Str × Relay))
    (acc : List Relay) (h : acc.length ≤ MAX_RESULTS) :
    collectFpPrefix qUp entries acc =
      (acc ++ (entries.filter fun e => qUp.isPrefixOf e.1).map Prod.snd).take
        (MAX_RESULTS + 1) := by
  induction entries generalizing acc with
  | nil =>
    simp only [collectFpPrefix, List.filter_nil, List.map_nil, List.append_nil]
    exact (List.take_of_length_le (by omega)).symm
  | cons e rest ih =>
    obtain ⟨k, r⟩ := e
    by_cases hp : qUp.isPrefixOf k
    · simp only [collectFpPrefix, hp, if_true, List.filter_cons, List.map_cons]
      by_cases hlen : MAX_RESULTS < (acc ++ [r]).length
      · rw [if_pos hlen]
        have hacc : (acc ++ [r]).length = MAX_RESULTS + 1 := by
          simp only [List.length_append, List.length_cons, List.length_nil] at hlen ⊢
          omega
        rw [show acc ++ r :: (rest.filter fun e => qUp.isPrefixOf e.1).map Prod.snd =
              (acc ++ [r]) ++ (rest.filter fun e => qUp.isPrefixOf e.1).map Prod.snd by simp]
        rw [← hacc, List.take_left]
      · rw [if_neg hlen]
        rw [ih (acc ++ [r]) (by
          simp only [List.length_append, List.length_cons, List.length_nil] at hlen ⊢
          omega)]
        congr 1
        simp
    · simp only [collectFpPrefix, hp, if_false, List.filter_cons]
      rw [ih acc h]
      simp [hp]

/-- C2: for a query of 6 to 39 hexadecimal characters, with `tm` the relays
whose fingerprint key starts with the uppercased query (in map order): one
match returns that single relay, two or more return a disambiguation result
listing at most 20 of them, and zero matches fall through to the later stages
on the same literal query string. -/
theorem c2_partial_fingerprint (q : Str) (idx : Lookup) (tm : List Relay)
    (h : rePartialFingerprint q = true)
    (htm : tm = (idx.fpMap.filter fun e => (toUpperStr q).isPrefixOf e.1).map Prod.snd) :
    (∀ r, tm = [r] → search q idx = .relay r.f) ∧
    (2 ≤ tm.length →
       search q idx = .multiple ((tm.take MAX_RESULTS).map relayResult) fpPrefixHint ∧
       ((tm.take MAX_RESULTS).map relayResult).length ≤ MAX_RESULTS) ∧
    (tm = [] → search q idx = searchLater q idx) := by
  have hps := h
  simp only [rePartialFingerprint, Bool.and_eq_true, decide_eq_true_eq] at hps
  have hfull : reFullFingerprint q = false := by
    simp only [reFullFingerprint, Bool.and_eq_false_imp]
    intro hq
    simp only [decide_eq_true_eq] at hq
    omega
  have hc : collectFpPrefix (toUpperStr q) idx.fpMap [] = tm.take (MAX_RESULTS + 1) := by
    rw [collectFpPrefix_spec (toUpperStr q) idx.fpMap [] (by simp)]
    simp [htm]
  have hs : search q idx =
      (match collectFpPrefix (toUpperStr q) idx.fpMap [] with
       | [] => searchLater q idx
       | [m] => SearchResult.relay m.f
       | ms => SearchResult.multiple ((ms.take MAX_RESULTS).map relayResult) fpPrefixHint) := by
    simp only [search, hfull, h, Bool.false_eq_true, if_false, if_true]
  refine ⟨?_, ?_, ?_⟩
  · intro r hr
    rw [hs, hc, hr]
    rfl
  · intro hlen
    rcases tm with _ | ⟨a, _ | ⟨b, rest⟩⟩
    · simp at hlen
    · simp at hlen
    · constructor
      · rw [hs, hc]
        show SearchResult.multiple
            ((((a :: b :: rest).take (MAX_RESULTS + 1)).take MAX_RESULTS).map relayResult)
            fpPrefixHint =
          SearchResult.multiple (((a :: b :: rest).take MAX_RESULTS).map relayResult) fpPrefixHint
        rw [List.take_take]
        rfl
      · simp only [List.length_map, List.length_take]
        omega
  · intro hnil
    rw [hs, hc, hnil]
    rfl

/-- Witness for C2: in an index where exactly one fingerprint starts with
`ABCDEF11`, that query resolves to the single relay. -/
theorem c2_partial_fingerprint_witness :
    search (("abcdef11").data) (buildLookupMaps rawFp) = .relay (("ABCDEF1111").data) :=
  (c2_partial_fingerprint (("abcdef11").data) (buildLookupMaps rawFp) [relayOne]
      (by decide) (by decide)).1 relayOne rfl

/-- `mapGet` after `mapSet`: the written key reads back the written value and
every other key is unaffected. -/
theorem mapGet_mapSet [DecidableEq κ] (m : List (κ × α)) (k k' : κ) (v : α) :
    mapGet (mapSet m k v) k' = if k = k' then some v else mapGet m k' := by
  induction m with
  | nil => simp [mapSet, mapGet]
  | cons p rest ih =>
    obtain ⟨k0, v0⟩ := p
    by_cases h0 : k0 = k
    · subst h0
      simp only [mapSet, if_pos rfl, mapGet]
      by_cases h1 : k0 = k' <;> simp [h1]
    · simp only [mapSet, if_neg h0, mapGet]
      by_cases h1 : k0 = k'
      · have : ¬ k = k' := fun he => h0 (h1.trans he.symm)
        simp [h1, this]
      · simp [h1, ih]

/-- The nickname map produced by one relay step of `buildLookupMaps`. -/
theorem relayStep_nickMap (acc : Lookup) (r : Relay) :
    (relayStep acc r).nickMap =
      if r.n.isEmpty then acc.nickMap
      else if (mapGet acc.nickMap (toLowerStr r.n)).isSome then acc.nickMap
      else mapSet acc.nickMap (toLowerStr r.n) r := by
  unfold relayStep
  dsimp only
  split_ifs <;> rfl

/-- The fingerprint map produced by one relay step of `buildLookupMaps`. -/
theorem relayStep_fpMap (acc : Lookup) (r : Relay) :
    (relayStep acc r).fpMap =
      if r.f.isEmpty then acc.fpMap else mapSet acc.fpMap r.f r := by
  unfold relayStep
  dsimp only
  split_ifs <;> rfl

/-- The AS pass touches neither the nickname map nor the fingerprint map. -/
theorem asPass_maps (l : List ASEntry) (acc : Lookup) :
    (l.foldl asStep acc).nickMap = acc.nickMap ∧
    (l.foldl asStep acc).fpMap = acc.fpMap := by
  induction l generalizing acc with
  | nil => exact ⟨rfl, rfl⟩
  | cons a l ih =>
    rw [List.foldl_cons]
    obtain ⟨h1, h2⟩ := ih (asStep acc a)
    constructor
    · rw [h1]; unfold asStep; split_ifs <;> rfl
    · rw [h2]; unfold asStep; split_ifs <;> rfl

/-- The country pass touches neither the nickname map nor the fingerprint
map. -/
theorem countryPass_maps (l : List Country) (acc : Lookup) :
    (l.foldl countryStep acc).nickMap = acc.nickMap ∧
    (l.foldl countryStep acc).fpMap = acc.fpMap := by
  induction l generalizing acc with
  | nil => exact ⟨rfl, rfl⟩
  | cons c l ih =>
    rw [List.foldl_cons]
    obtain ⟨h1, h2⟩ := ih (countryStep acc c)
    constructor
    · rw [h1]; unfold countryStep; dsimp only; split_ifs <;> rfl
    · rw [h2]; unfold countryStep; dsimp only; split_ifs <;> rfl

/-- The contact pass touches neither the nickname map nor the fingerprint
map. -/
theorem contactPass_maps (l : List Contact) (acc : Lookup) :
    (l.foldl contactStep acc).nickMap = acc.nickMap ∧
    (l.foldl contactStep acc).fpMap = acc.fpMap := by
  induction l generalizing acc with
  | nil => exact ⟨rfl, rfl⟩
  | cons c l ih =>
    rw [List.foldl_cons]
    obtain ⟨h1, h2⟩ := ih (contactStep acc c)
    constructor
    · rw [h1]; unfold contactStep; dsimp only; split_ifs <;> rfl
    · rw [h2]; unfold contactStep; dsimp only; split_ifs <;> rfl

/-- The family pass touches neither the nickname map nor the fingerprint
map. -/
theorem familyPass_maps (l : List Family) (acc : Lookup) :
    (l.foldl familyStep acc).nickMap = acc.nickMap ∧
    (l.foldl familyStep acc).fpMap = acc.fpMap := by
  induction l generalizing acc with
  | nil => exact ⟨rfl, rfl⟩
  | cons fa l ih =>
    rw [List.foldl_cons]
    obtain ⟨h1, h2⟩ := ih (familyStep acc fa)
    constructor
    · rw [h1]; unfold familyStep; dsimp only; split_ifs <;> rfl
    · rw [h2]; unfold familyStep; dsimp only; split_ifs <;> rfl

/-- The relay pass fills the nickname map first-match-wins: a lookup returns
what the accumulator already held, else the first relay (in index order) with
a nonempty nickname whose lowercasing equals the key. -/
theorem relayPass_nickMap (rs : List Relay) (acc : Lookup) (key : Str) :
    mapGet (rs.foldl relayStep acc).nickMap key =
      (match mapGet acc.nickMap key with
       | some v => some v
       | none => rs.find? (fun r => !r.n.isEmpty && decide (toLowerStr r.n = key))) := by
  induction rs generalizing acc with
  | nil => cases h : mapGet acc.nickMap key <;> simp [h]
  | cons r rest ih =>
    rw [List.foldl_cons, ih (relayStep acc r), relayStep_nickMap]
    by_cases hn : r.n.isEmpty
    · simp only [hn, if_true]
      cases h : mapGet acc.nickMap key with
      | some v => simp
      | none => simp [List.find?, hn]
    · by_cases hh : (mapGet acc.nickMap (toLowerStr r.n)).isSome
      · simp only [hn, hh, if_false, if_true, Bool.false_eq_true]
        cases h : mapGet acc.nickMap key with
        | some v => simp
        | none =>
          have hkey : ¬ (toLowerStr r.n = key) := by
            intro he
            rw [he, h] at hh
            simp at hh
          simp [List.find?, hn, hkey]
      · simp only [hn, hh, if_false, Bool.false_eq_true]
        rw [mapGet_mapSet]
        by_cases hkey : toLowerStr r.n = key
        · rw [if_pos hkey]
          have h : mapGet acc.nickMap key = none := by
            rw [← hkey]
            exact Option.not_isSome_iff_eq_none.mp hh
          simp [h, List.find?, hn, hkey]
        · rw [if_neg hkey]
          cases h : mapGet acc.nickMap key with
          | some v => simp
          | none => simp [List.find?, hn, hkey]

/-- The nickname map of the built lookup structure holds, for each key, the
first relay of the raw index with that lowercased nickname. -/
theorem buildLookupMaps_nickMap (raw : RawIndex) (key : Str) :
    mapGet (buildLookupMaps raw).nickMap key =
      raw.relays.find? (fun r => !r.n.isEmpty && decide (toLowerStr r.n = key)) := by
  unfold buildLookupMaps
  dsimp only
  rw [(familyPass_maps _ _).1, (contactPass_maps _ _).1, (countryPass_maps _ _).1,
      (asPass_maps _ _).1, relayPass_nickMap]
  simp [mapGet]

/-- C4 (counterexample to the claim as stated): with two distinct relays both
nicknamed `relayX`, classifying `relayX` returns a single-relay result for
the first indexed relay, never a `multiple` result. -/
theorem c4_counterexample :
    search (("relayX").data) (buildLookupMaps rawCollide) = .relay (("AAAA0001").data) ∧
    ∀ ms hint, search (("relayX").data) (buildLookupMaps rawCollide) ≠ .multiple ms hint := by
  refine ⟨by decide, ?_⟩
  intro ms hint hc
  rw [show search (("relayX").data) (buildLookupMaps rawCollide) =
        SearchResult.relay (("AAAA0001").data) from by decide] at hc
  simp at hc

/-- C4 (amended): the built nickname map keeps only the first colliding relay
record — a lookup returns the first relay of the index (in order) with a
nonempty nickname whose lowercased form equals the key — and, concretely,
classifying the collided nickname `relayX` returns a single-relay result for
the relay that was indexed first. -/
theorem c4_nickname_first_wins :
    (∀ (raw : RawIndex) (key : Str),
       mapGet (buildLookupMaps raw).nickMap key =
         raw.relays.find? (fun r => !r.n.isEmpty && decide (toLowerStr r.n = key))) ∧
    search (("relayX").data) (buildLookupMaps rawCollide) = .relay (("AAAA0001").data) :=
  ⟨buildLookupMaps_nickMap, by decide⟩

/-- `mapGet` returning a value means the pair is among the entries. -/
theorem mapGet_mem [DecidableEq κ] (m : List (κ × α)) (k : κ) (v : α)
    (h : mapGet m k = some v) : (k, v) ∈ m := by
  induction m with
  | nil => simp [mapGet] at h
  | cons p rest ih =>
    obtain ⟨k0, v0⟩ := p
    simp only [mapGet] at h
    split_ifs at h with h0
    · subst h0
      injection h with h
      subst h
      exact List.mem_cons_self _ _
    · exact List.mem_cons_of_mem _ (ih h)

/-- Every entry after `mapSet` is the written pair or an original entry. -/
theorem mapSet_mem [DecidableEq κ] (m : List (κ × α)) (k : κ) (v : α) (p : κ × α)
    (h : p ∈ mapSet m k v) : p = (k, v) ∨ p ∈ m := by
  induction m with
  | nil => simpa [mapSet] using h
  | cons q rest ih =>
    obtain ⟨k0, v0⟩ := q
    simp only [mapSet] at h
    by_cases h0 : k0 = k
    · rw [if_pos h0, List.mem_cons] at h
      rcases h with h | h
      · exact Or.inl h
      · exact Or.inr (List.mem_cons_of_mem _ h)
    · rw [if_neg h0, List.mem_cons] at h
      rcases h with h | h
      · exact Or.inr (by simp [h])
      · rcases ih h with h' | h'
        · exact Or.inl h'
        · exact Or.inr (List.mem_cons_of_mem _ h')

/-- One relay step never removes a fingerprint key. -/
theorem relayStep_fpMap_isSome (acc : Lookup) (r : Relay) (key : Str)
    (h : (mapGet acc.fpMap key).isSome = true) :
    (mapGet (relayStep acc r).fpMap key).isSome = true := by
  rw [relayStep_fpMap]
  split_ifs with hf
  · exact h
  · rw [mapGet_mapSet]
    split_ifs with hk
    · rfl
    · exact h

/-- The relay pass never removes a fingerprint key. -/
theorem relayPass_fpMap_isSome (rs : List Relay) (acc : Lookup) (key : Str)
    (h : (mapGet acc.fpMap key).isSome = true) :
    (mapGet (rs.foldl relayStep acc).fpMap key).isSome = true := by
  induction rs generalizing acc with
  | nil => exact h
  | cons r rest ih =>
    rw [List.foldl_cons]
    exact ih (relayStep acc r) (relayStep_fpMap_isSome acc r key h)

/-- After the relay pass, every relay with a nonempty fingerprint is found
under its stored fingerprint key. -/
theorem relayPass_fpMap_mem (rs : List Relay) (acc : Lookup) (r : Relay)
    (hr : r ∈ rs) (hf : ¬ r.f.isEmpty = true) :
    (mapGet (rs.foldl relayStep acc).fpMap r.f).isSome = true := by
  induction rs generalizing acc with
  | nil => cases hr
  | cons r0 rest ih =>
    rw [List.foldl_cons]
    rcases List.mem_cons.mp hr with he | hm
    · subst he
      refine relayPass_fpMap_isSome rest (relayStep acc r) r.f ?_
      rw [relayStep_fpMap, if_neg hf, mapGet_mapSet, if_pos rfl]
      rfl
    · exact ih (relayStep acc r0) hm

/-- Invariant of the fingerprint map: each entry's value stores exactly the
entry's key as its fingerprint (keys are the stored fingerprints verbatim). -/
theorem relayPass_fpMap_inv (rs : List Relay) (acc : Lookup)
    (hacc : ∀ p ∈ acc.fpMap, (p.2).f = p.1) :
    ∀ p ∈ (rs.foldl relayStep acc).fpMap, (p.2).f = p.1 := by
  induction rs generalizing acc with
  | nil => exact hacc
  | cons r rest ih =>
    rw [List.foldl_cons]
    refine ih (relayStep acc r) ?_
    intro p hp
    rw [relayStep_fpMap] at hp
    by_cases hf : r.f.isEmpty
    · rw [if_pos hf] at hp
      exact hacc p hp
    · rw [if_neg hf] at hp
      rcases mapSet_mem _ _ _ _ hp with he | hm
      · subst he; rfl
      · exact hacc p hm

/-- C8 (amended): `buildLookupMaps` keys the fingerprint map by each relay's
stored fingerprint verbatim (no case normalization); hence, for a relay whose
stored fingerprint is already in canonical uppercase form, looking up the
uppercased fingerprint finds a relay carrying that very fingerprint. -/
theorem c8_fingerprint_keys_verbatim (raw : RawIndex) (r : Relay)
    (hr : r ∈ raw.relays) (hf : r.f ≠ [])
    (hcanon : toUpperStr r.f = r.f) :
    ∃ r', mapGet (buildLookupMaps raw).fpMap (toUpperStr r.f) = some r' ∧ r'.f = r.f := by
  rw [hcanon]
  have hfp : (buildLookupMaps raw).fpMap = (raw.relays.foldl relayStep { relays := raw.relays }).fpMap := by
    unfold buildLookupMaps
    dsimp only
    rw [(familyPass_maps _ _).2, (contactPass_maps _ _).2, (countryPass_maps _ _).2,
        (asPass_maps _ _).2]
  rw [hfp]
  have hfb : ¬ r.f.isEmpty = true := by simpa using hf
  have hsome := relayPass_fpMap_mem raw.relays { relays := raw.relays } r hr hfb
  obtain ⟨r', hr'⟩ := Option.isSome_iff_exists.mp hsome
  refine ⟨r', hr', ?_⟩
  have hinv := relayPass_fpMap_inv raw.relays { relays := raw.relays } (by intro p hp; cases hp)
  exact hinv (r.f, r') (mapGet_mem _ _ _ hr')

/-- Witness for C8 (amended): the uppercase-stored fingerprint of `relayOne`
is found under its uppercased form. -/
theorem c8_fingerprint_keys_verbatim_witness :
    ∃ r', mapGet (buildLookupMaps rawFp).fpMap (toUpperStr (("ABCDEF1111").data)) = some r' ∧
          r'.f = ("ABCDEF1111").data := by
  have h := c8_fingerprint_keys_verbatim rawFp relayOne (by decide) (by decide) (by decide)
  exact h

/-- C8 (counterexample to the claim as stated): a raw record storing its
40-hex fingerprint in lowercase yields a lowercase map key, so looking up the
uppercased form finds nothing — and even searching for the very fingerprint
the index stores returns `not_found`. -/
theorem c8_counterexample :
    ({ f := fp40low } : Relay) ∈ rawLowFp.relays ∧
    mapGet (buildLookupMaps rawLowFp).fpMap (toUpperStr fp40low) = none ∧
    search fp40low (buildLookupMaps rawLowFp) = .not_found := by
  refine ⟨by decide, by decide, by decide⟩

/-- `dangerCount` distributes over concatenation. -/
theorem dangerCount_append (a b : Str) :
    dangerCount (a ++ b) = dangerCount a + dangerCount b :=
  List.countP_append _ _ _

/-- Each single-character replacement is free of dangerous characters. -/
theorem dangerCount_escapeChar (c : Char) : dangerCount (escapeChar c) = 0 := by
  unfold escapeChar
  split_ifs with h1 h2 h3 h4 h5
  · decide
  · decide
  · decide
  · decide
  · decide
  · simp [dangerCount, isDangerChar, h2, h3, h4, h5]

/-- `escapeHtml` output contains none of `<`, `>`, `"`, `'`. -/
theorem dangerCount_escapeHtml (s : Str) : dangerCount (escapeHtml s) = 0 := by
  induction s with
  | nil => rfl
  | cons c rest ih =>
    simp only [escapeHtml, dangerCount_append, dangerCount_escapeChar, ih]

/-- Prepending one escaped character preserves the entity property. -/
theorem ampOk_escapeChar (c : Char) (t : Str) (h : ampOk t = true) :
    ampOk (escapeChar c ++ t) = true := by
  unfold escapeChar
  split_ifs with h1 h2 h3 h4 h5
  · simp [ampOk, entityAt, List.isPrefixOf, h]
  · simp [ampOk, entityAt, List.isPrefixOf, h]
  · simp [ampOk, entityAt, List.isPrefixOf, h]
  · simp [ampOk, entityAt, List.isPrefixOf, h]
  · simp [ampOk, entityAt, List.isPrefixOf, h]
  · simp [ampOk, h1, h]

/-- Every `&` in `escapeHtml` output begins one of the five entities. -/
theorem ampOk_escapeHtml (s : Str) : ampOk (escapeHtml s) = true := by
  induction s with
  | nil => rfl
  | cons c rest ih => exact ampOk_escapeChar c (escapeHtml rest) ih

/-- `dangerCount` of the empty string. -/
theorem dangerCount_nil : dangerCount ([] : Str) = 0 := rfl

/-- The dangerous characters of a rendered page are those of the static page
template plus those of the content; the escaped title and query contribute
none. -/
theorem dangerCount_renderPage (t c q : Str) :
    dangerCount (renderPage t c q) = pageDanger + dangerCount c := by
  unfold pageDanger renderPage
  simp only [dangerCount_append, dangerCount_escapeHtml, dangerCount_nil]
  omega

/-- A non-relay entry renders to nothing. -/
theorem renderItem_not_relay (m : MatchEntry) (h : ¬ m.t = ("relay").data) :
    renderItem m = [] := by
  unfold renderItem
  rw [if_neg h]

/-- Every relay entry contributes exactly the dangerous characters of its
static item markup; the escaped nickname, fingerprint and country contribute
none. -/
theorem dangerCount_renderItem (m : MatchEntry) (h : m.t = ("relay").data) :
    dangerCount (renderItem m) = relayItemDanger := by
  have hcc : ∀ ccs : Str,
      dangerCount (if ccs.isEmpty then ([] : Str) else escapeHtml (toUpperStr ccs) ++ (" ").data) = 0 := by
    intro ccs
    split_ifs
    · rfl
    · rw [dangerCount_append, dangerCount_escapeHtml]
      decide
  have hname : ∀ ns : Str,
      dangerCount (escapeHtml (if ns.isEmpty then ("Unnamed").data else ns)) = 0 := by
    intro ns
    exact dangerCount_escapeHtml _
  unfold relayItemDanger renderItem
  rw [if_pos h, if_pos rfl]
  dsimp only
  simp only [dangerCount_append, dangerCount_escapeHtml, hcc, hname]

/-- The item loop contributes the static item markup once per relay entry. -/
theorem dangerCount_items (ms : List MatchEntry) :
    dangerCount ((ms.map renderItem).flatten) =
      relayItemDanger * (ms.countP (fun m => decide (m.t = ("relay").data))) := by
  induction ms with
  | nil => simp [dangerCount]
  | cons m rest ih =>
    simp only [List.map_cons, List.flatten_cons, dangerCount_append, ih, List.countP_cons]
    by_cases h : m.t = ("relay").data
    · rw [dangerCount_renderItem m h]
      simp [h]
      ring
    · rw [renderItem_not_relay m h]
      simp [h, dangerCount]

/-- C9: `escapeHtml` output contains no `<`, `>`, `"` or `'` and every `&` in
it begins one of the five replacement entities; the not-found, invalid-query
and disambiguation pages embed the query, hint, nickname and fingerprint
values only through `escapeHtml` — their dangerous-character counts equal the
static template counts, independent of every user-influenced value. -/
theorem c9_html_escaping :
    (∀ s : Str, dangerCount (escapeHtml s) = 0 ∧ ampOk (escapeHtml s) = true) ∧
    (∀ q : Str, dangerCount (renderNotFound q).1 = dangerCount (renderNotFound []).1) ∧
    (∀ e : Str, dangerCount (renderInvalid e).1 = dangerCount (renderInvalid []).1) ∧
    (∀ (ms : List MatchEntry) (q hint : Str),
       dangerCount (renderDisambiguation ms q hint).1 =
         dangerCount (renderDisambiguation [] [] []).1 +
         (if hint.isEmpty then 0 else hintWrapDanger) +
         relayItemDanger * (ms.countP (fun m => decide (m.t = ("relay").data)))) := by
  refine ⟨fun s => ⟨dangerCount_escapeHtml s, ampOk_escapeHtml s⟩, ?_, ?_, ?_⟩
  · intro q
    unfold renderNotFound
    dsimp only
    rw [dangerCount_renderPage, dangerCount_renderPage]
    simp only [dangerCount_append, dangerCount_escapeHtml, dangerCount_nil]
  · intro e
    unfold renderInvalid
    dsimp only
    rw [dangerCount_renderPage, dangerCount_renderPage]
    simp only [dangerCount_append, dangerCount_escapeHtml, dangerCount_nil]
  · intro ms q hint
    unfold renderDisambiguation
    dsimp only
    rw [dangerCount_renderPage, dangerCount_renderPage]
    simp only [dangerCount_append, dangerCount_items, List.map_nil, List.flatten_nil,
               List.countP_nil, List.isEmpty_nil, if_true, dangerCount_nil]
    by_cases hh : hint.isEmpty
    · rw [if_pos hh, if_pos hh]
      simp only [dangerCount_nil, Nat.mul_zero, Nat.add_zero, Nat.zero_add]
    · rw [if_neg hh, if_neg hh]
      unfold hintWrapDanger
      simp only [dangerCount_append, dangerCount_escapeHtml]
      omega

/-- Stage 3 never yields a `multiple` result. -/
theorem stage3_not_multiple (q : Str) (idx : Lookup) (ms : List MatchEntry) (h : Str) :
    stage3 q idx ≠ some (.multiple ms h) := by
  intro hc
  unfold stage3 at hc
  split at hc
  · dsimp only at hc
    split_ifs at hc
    simp_all
  · simp_all

/-- Stage 4 never yields a `multiple` result. -/
theorem stage4_not_multiple (q qLow : Str) (idx : Lookup) (ms : List MatchEntry) (h : Str) :
    stage4 q qLow idx ≠ some (.multiple ms h) := by
  intro hc
  unfold stage4 at hc
  split_ifs at hc
  simp_all

/-- Stage 5 never yields a `multiple` result. -/
theorem stage5_not_multiple (qLow : Str) (idx : Lookup) (ms : List MatchEntry) (h : Str) :
    stage5 qLow idx ≠ some (.multiple ms h) := by
  intro hc
  unfold stage5 at hc
  split at hc
  · split_ifs at hc
    simp_all
  · simp_all

/-- Stage 6 never yields a `multiple` result. -/
theorem stage6_not_multiple (qLow : Str) (ms : List MatchEntry) (h : Str) :
    stage6 qLow ≠ some (.multiple ms h) := by
  intro hc
  unfold stage6 at hc
  split_ifs at hc
  simp_all

/-- Stage 7 never yields a `multiple` result. -/
theorem stage7_not_multiple (qLow : Str) (ms : List MatchEntry) (h : Str) :
    stage7 qLow ≠ some (.multiple ms h) := by
  intro hc
  unfold stage7 at hc
  split_ifs at hc
  simp_all

/-- Stage 8 never yields a `multiple` result. -/
theorem stage8_not_multiple (qLow : Str) (idx : Lookup) (ms : List MatchEntry) (h : Str) :
    stage8 qLow idx ≠ some (.multiple ms h) := by
  intro hc
  unfold stage8 at hc
  split at hc
  · simp_all
  · split at hc <;> simp_all

/-- Stage 9 never yields a `multiple` result. -/
theorem stage9_not_multiple (q : Str) (idx : Lookup) (ms : List MatchEntry) (h : Str) :
    stage9 q idx ≠ some (.multiple ms h) := by
  intro hc
  unfold stage9 at hc
  split_ifs at hc
  rcases hm : mapGet idx.ipMap q with _ | r <;> rw [hm] at hc <;> simp_all

/-- Stage 10 never yields a `multiple` result. -/
theorem stage10_not_multiple (qLow : Str) (idx : Lookup) (ms : List MatchEntry) (h : Str) :
    stage10 qLow idx ≠ some (.multiple ms h) := by
  intro hc
  unfold stage10 at hc
  rcases hm : mapGet idx.nickMap qLow with _ | r <;> rw [hm] at hc <;> simp_all

/-- Stage 11 never yields a `multiple` result. -/
theorem stage11_not_multiple (qLow : Str) (idx : Lookup) (ms : List MatchEntry) (h : Str) :
    stage11 qLow idx ≠ some (.multiple ms h) := by
  intro hc
  unfold stage11 at hc
  rcases hm : mapGet idx.familyPrefixMap qLow with _ | fa <;> rw [hm] at hc <;> simp_all

/-- Every `multiple` result out of stage 12 lists at most `MAX_RESULTS`
entries (both disambiguation sites truncate with `take`). -/
theorem stage12_multiple_bound (q qLow : Str) (idx : Lookup) (ms : List MatchEntry) (h : Str)
    (hc : stage12 q qLow idx = .multiple ms h) : ms.length ≤ MAX_RESULTS := by
  unfold stage12 at hc
  dsimp only at hc
  split at hc
  · -- single prefix match
    simp_all
  · -- several prefix matches
    split at hc
    · split_ifs at hc
      injection hc with h1 h2
      rw [← h1]
      simp only [List.length_map, List.length_take]
      omega
    · injection hc with h1 h2
      rw [← h1]
      simp only [List.length_map, List.length_take]
      omega
  · -- no prefix matches: contains fallback
    split at hc
    · simp_all
    · split_ifs at hc
      injection hc with h1 h2
      rw [← h1]
      simp only [List.length_map, List.length_take]
      omega
    · simp_all

/-- Every `multiple` result out of the post-fingerprint stages lists at most
`MAX_RESULTS` entries. -/
theorem searchLater_multiple_bound (q : Str) (idx : Lookup) (ms : List MatchEntry) (h : Str)
    (hc : searchLater q idx = .multiple ms h) : ms.length ≤ MAX_RESULTS := by
  unfold searchLater at hc
  dsimp only at hc
  split at hc
  case _ r heq => rw [hc] at heq; exact absurd heq (stage3_not_multiple q idx ms h)
  split at hc
  case _ r heq => rw [hc] at heq; exact absurd heq (stage4_not_multiple q (toLowerStr q) idx ms h)
  split at hc
  case _ r heq => rw [hc] at heq; exact absurd heq (stage5_not_multiple (toLowerStr q) idx ms h)
  split at hc
  case _ r heq => rw [hc] at heq; exact absurd heq (stage6_not_multiple (toLowerStr q) ms h)
  split at hc
  case _ r heq => rw [hc] at heq; exact absurd heq (stage7_not_multiple (toLowerStr q) ms h)
  split at hc
  case _ r heq => rw [hc] at heq; exact absurd heq (stage8_not_multiple (toLowerStr q) idx ms h)
  split at hc
  case _ r heq => rw [hc] at heq; exact absurd heq (stage9_not_multiple q idx ms h)
  split at hc
  case _ r heq => rw [hc] at heq; exact absurd heq (stage10_not_multiple (toLowerStr q) idx ms h)
  split at hc
  case _ r heq => rw [hc] at heq; exact absurd heq (stage11_not_multiple (toLowerStr q) idx ms h)
  exact stage12_multiple_bound q (toLowerStr q) idx ms h hc

/-- C7: every disambiguation result of `search` lists at most 20 matches even
when more candidates exist, and with 35 relays whose nickname contains
`relay` the result lists exactly 20 entries while the hint states the true
candidate count 35. -/
theorem c7_disambiguation_truncation :
    (∀ (q : Str) (idx : Lookup) (ms : List MatchEntry) (hint : Str),
       search q idx = .multiple ms hint → ms.length ≤ MAX_RESULTS) ∧
    (search (("relay").data) (buildLookupMaps rawContains35) =
       .multiple (List.replicate 20 (relayResult containsRelay))
         (containsHint 35 (("relay").data)) ∧
     (List.replicate 20 (relayResult containsRelay)).length = MAX_RESULTS ∧
     (20 : Nat) < 35) := by
  constructor
  · intro q idx ms hint hc
    unfold search at hc
    split_ifs at hc with hf hp
    · dsimp only at hc
      split at hc
      · simp_all
      · split at hc <;> simp_all
    · split at hc
      · exact searchLater_multiple_bound q idx ms hint hc
      · simp_all
      · injection hc with h1 h2
        rw [← h1]
        simp only [List.length_map, List.length_take]
        omega
    · exact searchLater_multiple_bound q idx ms hint hc
  · refine ⟨?_, by decide, by decide⟩
    set_option maxRecDepth 8192 in decide

/-- Witness for C7: the bound applies at the concrete 35-candidate index. -/
theorem c7_disambiguation_truncation_witness :
    (List.replicate 20 (relayResult containsRelay)).length ≤ MAX_RESULTS :=
  c7_disambiguation_truncation.1 (("relay").data) (buildLookupMaps rawContains35)
    (List.replicate 20 (relayResult containsRelay)) (containsHint 35 (("relay").data))
    (by set_option maxRecDepth 8192 in decide)

end Allium
